import Mathlib

/-!
Verification development for the schedule-medicine-bot repository.

The model below is a shallow embedding of the Go sources:
- `Reminder`, `User`, `UserState`, `PendingReminder` mirror the data
  declarations of bot source (part_002 lines 16-85, part_001 lines 277-329).
- `Store` operations mirror the Storage layer (part_001, `Storage.*`,
  Postgres) and the equivalent in-memory `Bot.*` methods of part_001
  (lines 1037-1083); both variants have the same logical semantics, which
  is what is embedded here (association-list store, first-match lookup,
  matching the map / primary-key semantics of the source).
- Handlers (`handleStats`, `handleNotify`, `handleCustomCourseInput`,
  `processCommand`, `schedulerTick`) mirror part_002 and src/main.go.
Chat-platform sends are modelled as an append-only `outbox`; sends always
succeed in the model (failure paths of the notifier are out of scope).
-/

/-- Mirrors the Go struct `Reminder` (part_002 lines 17-24): integer id,
medicine name, hour, minute, course length in days (0 = unbounded) and
the doses-taken counter. Go `int` is modelled as `Int`. -/
structure Reminder where
  id : Int
  medicine : String
  hour : Int
  minute : Int
  courseDays : Int
  dosesTaken : Int
deriving DecidableEq, Repr

/-- Mirrors Go `Reminder.IsCompleted` (part_002 lines 39-41):
`r.CourseDays > 0 && r.DosesTaken >= r.CourseDays`. -/
def Reminder.IsCompleted (r : Reminder) : Bool :=
  decide (r.courseDays > 0) && decide (r.dosesTaken ≥ r.courseDays)

/-- Mirrors Go `Reminder.CourseString` (part_002 lines 31-36). -/
def Reminder.CourseString (r : Reminder) : String :=
  if r.courseDays = 0 then toString r.dosesTaken ++ "/∞"
  else toString r.dosesTaken ++ "/" ++ toString r.courseDays

/-- Two-digit zero padding, mirroring Go's `%02d` verb for the values
used by the source (hours and minutes). -/
def pad2 (n : Int) : String :=
  if 0 ≤ n ∧ n < 10 then "0" ++ toString n else toString n

/-- Mirrors Go `Reminder.TimeString` (part_002 lines 26-28):
`fmt.Sprintf("%02d:%02d", r.Hour, r.Minute)`. -/
def Reminder.TimeString (r : Reminder) : String :=
  pad2 r.hour ++ ":" ++ pad2 r.minute

/-- Mirrors the Go enum `UserState` (part_002 lines 44-53). -/
inductive UserState where
  | StateNone
  | StateWaitingMedicine
  | StateWaitingHour
  | StateWaitingMinute
  | StateWaitingCourse
  | StateWaitingCustomCourse
deriving DecidableEq, Repr

/-- Mirrors the Go struct `PendingReminder` (part_002 lines 71-77): the
transient dialog state kept in the bot's `pending` map. -/
structure PendingReminder where
  state : UserState
  medicine : String
  hour : Int
  minute : Int
  msgID : Int
deriving DecidableEq, Repr

/-- A stored user: `chat_id` and `active` mirror the `users` table
(part_001 lines 39-43); `reminders` mirrors the user's rows of the
`reminders` table; `nextID` mirrors the id generator (`NextID` of the
in-memory variant / SERIAL of the table). -/
structure User where
  chatID : Int
  active : Bool
  reminders : List Reminder
  nextID : Int
deriving DecidableEq, Repr

/-- The repository state: the users table together with each user's
reminders, keyed by `chatID` (unique key in the source: map key /
primary key). -/
structure Store where
  users : List User
deriving DecidableEq, Repr

/-- First user with the given chat id (map lookup / `WHERE chat_id = $1`). -/
def Store.findUser (s : Store) (cid : Int) : Option User :=
  s.users.find? (fun u => u.chatID == cid)

/-- The reminders of the given user, `[]` when the user does not exist
(mirrors `Storage.GetReminders`, part_001 lines 120-143, minus the
cosmetic time ordering of the listing). -/
def Store.userReminders (s : Store) (cid : Int) : List Reminder :=
  match s.findUser cid with
  | none => []
  | some u => u.reminders

/-- Mirrors the inner loop of `Bot.IncrementDoseTaken` (part_001 lines
1066-1081): find the first reminder with the given id, increment its
counter, and if the course is then completed remove it; returns the Go
result tuple `(medicine, newCount, total, completed)` together with the
updated list. An empty medicine name is the not-found sentinel. -/
def incRem : List Reminder → Int → (String × Int × Int × Bool) × List Reminder
  | [], _ => (("", 0, 0, false), [])
  | r :: rs, rid =>
    if r.id == rid then
      let r' : Reminder := { r with dosesTaken := r.dosesTaken + 1 }
      if r'.IsCompleted then ((r.medicine, r'.dosesTaken, r.courseDays, true), rs)
      else ((r.medicine, r'.dosesTaken, r.courseDays, false), r' :: rs)
    else
      let p := incRem rs rid
      (p.1, r :: p.2)

/-- Lifts `incRem` to the user list: operates on the first user with the
given chat id; sentinel when the user does not exist (part_001 lines
1061-1064 / the `ErrNoRows` branch of `Storage.IncrementDoseTaken`,
part_001 lines 209-211). -/
def incUsers : List User → Int → Int → (String × Int × Int × Bool) × List User
  | [], _, _ => (("", 0, 0, false), [])
  | u :: us, cid, rid =>
    if u.chatID == cid then
      let p := incRem u.reminders rid
      (p.1, { u with reminders := p.2 } :: us)
    else
      let q := incUsers us cid rid
      (q.1, u :: q.2)

/-- Mirrors `Storage.IncrementDoseTaken` (part_001 lines 199-222) and
`Bot.IncrementDoseTaken` (part_001 lines 1056-1083): atomically
increments the counter of the named reminder and deletes it when the
increment completes a finite course, as one step. -/
def Store.IncrementDoseTaken (s : Store) (cid rid : Int) :
    (String × Int × Int × Bool) × Store :=
  let p := incUsers s.users cid rid
  (p.1, ⟨p.2⟩)

/-- Appends a fresh reminder (doses_taken = 0) with the user's next id to
the first user with the given chat id; a missing user leaves the store
unchanged (mirrors `Storage.AddReminder`, part_001 lines 146-157, and the
in-memory creation in `handleCourseSelected`, part_001 lines 753-761). -/
def addRemUsers : List User → Int → String → Int → Int → Int → List User
  | [], _, _, _, _, _ => []
  | u :: us, cid, med, hh, mm, cd =>
    if u.chatID == cid then
      { u with
          reminders := u.reminders ++ [⟨u.nextID, med, hh, mm, cd, 0⟩],
          nextID := u.nextID + 1 } :: us
    else u :: addRemUsers us cid med hh mm cd

/-- Repository insert of a reminder. -/
def Store.AddReminder (s : Store) (cid : Int) (med : String) (hh mm cd : Int) : Store :=
  ⟨addRemUsers s.users cid med hh mm cd⟩

/-- Removes the first reminder with the given id (the id is unique in the
source: SERIAL primary key / per-user NextID with a `break` after the
first hit, part_001 lines 874-879). -/
def delRem : List Reminder → Int → List Reminder
  | [], _ => []
  | r :: rs, rid => if r.id == rid then rs else r :: delRem rs rid

/-- Lifts `delRem` to the user list. -/
def delRemUsers : List User → Int → Int → List User
  | [], _, _ => []
  | u :: us, cid, rid =>
    if u.chatID == cid then { u with reminders := delRem u.reminders rid } :: us
    else u :: delRemUsers us cid rid

/-- Mirrors `Storage.DeleteReminder` (part_001 lines 160-166). -/
def Store.DeleteReminder (s : Store) (cid rid : Int) : Store :=
  ⟨delRemUsers s.users cid rid⟩

/-- Sets the active flag of the first user with the given chat id
(mirrors `Storage.SetUserActive`, part_001 lines 111-117). -/
def setActiveUsers : List User → Int → Bool → List User
  | [], _, _ => []
  | u :: us, cid, a =>
    if u.chatID == cid then { u with active := a } :: us
    else u :: setActiveUsers us cid a

/-- Repository update of a user's active flag. -/
def Store.SetUserActive (s : Store) (cid : Int) (a : Bool) : Store :=
  ⟨setActiveUsers s.users cid a⟩

/-- Mirrors `Storage.GetOrCreateUser` (part_001 lines 68-80): inserts a
fresh active user when the chat id is unknown, otherwise no change. -/
def Store.GetOrCreateUser (s : Store) (cid : Int) : Store :=
  match s.findUser cid with
  | some _ => s
  | none => ⟨s.users ++ [⟨cid, true, [], 1⟩]⟩

/-- The due reminders of one user at (hour, minute): mirrors the per-user
body of `Bot.GetRemindersForTime` (part_001 lines 1043-1052) and the SQL
`WHERE` clause of `Storage.GetRemindersForTime` (part_001 lines 172-179):
inactive users contribute nothing, and a reminder qualifies when its time
matches and its course is not completed. -/
def dueFor (u : User) (hh mm : Int) : List Reminder :=
  if u.active then
    u.reminders.filter (fun r => r.hour == hh && r.minute == mm && !r.IsCompleted)
  else []

/-- Mirrors `Storage.GetRemindersForTime` / `Bot.GetRemindersForTime`
(part_001 lines 169-196 and 1037-1054): the chat-id-keyed mapping of due
reminders; users with no due reminder get no entry (the Go map only gains
a key when a reminder is appended). -/
def Store.GetRemindersForTime (s : Store) (hh mm : Int) : List (Int × List Reminder) :=
  s.users.filterMap (fun u =>
    let l := dueFor u hh mm
    if l.isEmpty then none else some (u.chatID, l))

/-- All chat ids, mirrors `Storage.GetAllUsers` (part_001 lines 243-262). -/
def Store.GetAllUsers (s : Store) : List Int :=
  s.users.map (fun u => u.chatID)

/-- Mirrors `Storage.GetStats` (part_001 lines 225-240): the seven
aggregate counts (total users, active users, total reminders, finite
courses, unbounded courses, doses taken, doses planned). -/
def Store.GetStats (s : Store) : Int × Int × Int × Int × Int × Int × Int :=
  let rs := (s.users.map (fun u => u.reminders)).flatten
  (Int.ofNat s.users.length,
   Int.ofNat (s.users.filter (fun u => u.active)).length,
   Int.ofNat rs.length,
   Int.ofNat (rs.filter (fun r => decide (r.courseDays > 0))).length,
   Int.ofNat (rs.filter (fun r => r.courseDays == 0)).length,
   rs.foldl (fun a r => a + r.dosesTaken) 0,
   rs.foldl (fun a r => if r.courseDays > 0 then a + r.courseDays else a) 0)

/-- The stats message of `handleStats` (part_002 lines 657-665). -/
def statsText (s : Store) : String :=
  let t := s.GetStats
  "📊 Статистика бота:\n\n" ++
  "👥 Всего пользователей: " ++ toString t.1 ++ "\n" ++
  "✅ Активных: " ++ toString t.2.1 ++ "\n\n" ++
  "💊 Всего напоминаний: " ++ toString t.2.2.1 ++ "\n" ++
  "   📅 Курсов с датой окончания: " ++ toString t.2.2.2.1 ++ "\n" ++
  "   ♾ Бесконечных курсов: " ++ toString t.2.2.2.2.1 ++ "\n\n" ++
  "📈 Принято доз: " ++ toString t.2.2.2.2.2.1 ++ "\n" ++
  "📋 Запланировано доз: " ++ toString t.2.2.2.2.2.2

/-- One outbound chat message: recipient, text, and the reminder id bound
to an acknowledgement button when present (`sendReminderWithButton`
attaches `taken_<id>`; plain `sendMessage` attaches nothing). -/
structure Msg where
  chatID : Int
  text : String
  ackReminder : Option Int
deriving DecidableEq, Repr

/-- The bot's observable state: the repository, the transient `pending`
dialog map (part_002 line 82), the configured admin id (0 when the
ADMIN_ID variable is unset, part_002 lines 127-131), the scheduler's
`lastSentTime` dedupe marker (src/main.go line 91) and the append-only
log of sent messages. -/
structure BotState where
  store : Store
  pending : List (Int × PendingReminder)
  adminID : Int
  lastSentTime : String
  outbox : List Msg
deriving DecidableEq, Repr

/-- Go `delete(b.pending, chatID)`. -/
def delPending (l : List (Int × PendingReminder)) (cid : Int) :
    List (Int × PendingReminder) :=
  l.filter (fun q => q.1 != cid)

/-- Go `b.pending[chatID] = p`. -/
def setPending (l : List (Int × PendingReminder)) (cid : Int) (p : PendingReminder) :
    List (Int × PendingReminder) :=
  (cid, p) :: delPending l cid

/-- Go `Bot.sendMessage` (part_002 lines 709-714), modelled as an outbox
append; sends always succeed in the model. -/
def sendMessage (b : BotState) (cid : Int) (text : String) : BotState :=
  { b with outbox := b.outbox ++ [⟨cid, text, none⟩] }

/-- Go `Bot.sendReminderWithButton` (part_002 lines 723-736): the message
carries the acknowledgement button bound to the reminder id. -/
def sendReminderWithButton (b : BotState) (cid : Int) (text : String) (rid : Int) :
    BotState :=
  { b with outbox := b.outbox ++ [⟨cid, text, some rid⟩] }

/-- Whitespace in the sense of Go `unicode.IsSpace`, the predicate
`strings.TrimSpace` trims by: the Latin-1 cases '\t'..'\r' (including
'\v' = 11 and '\f' = 12), ' ', U+0085 (NEL) and U+00A0 (NBSP), plus the
Unicode White_Space ranges U+1680, U+2000..U+200A, U+2028, U+2029,
U+202F, U+205F and U+3000, by code point. -/
def isSpaceChar (c : Char) : Bool :=
  let n := c.toNat
  decide (9 ≤ n ∧ n ≤ 13) || n == 32 || n == 133 || n == 160 || n == 5760 ||
  decide (8192 ≤ n ∧ n ≤ 8202) || n == 8232 || n == 8233 ||
  n == 8239 || n == 8287 || n == 12288

/-- Drops leading and trailing whitespace from a character list. -/
def trimChars (cs : List Char) : List Char :=
  ((cs.dropWhile isSpaceChar).reverse.dropWhile isSpaceChar).reverse

/-- Go `strings.TrimSpace`: the input with all leading and trailing
`unicode.IsSpace` characters removed. -/
def goTrimSpace (s : String) : String :=
  ⟨trimChars s.data⟩

/-- Go `handleStart` (part_002 lines 314-336): create-if-missing,
activate, greet. -/
def handleStart (b : BotState) (cid : Int) : BotState :=
  sendMessage
    { b with store := (b.store.GetOrCreateUser cid).SetUserActive cid true } cid
    ("Привет! Я помогу тебе не забывать принимать лекарства.\n\n" ++
     "Используй кнопки ниже или команды:\n/add — добавить напоминание\n/list — список напоминаний")

/-- Go `handleAdd` (part_002 lines 338-361): create-if-missing, start a
fresh dialog in `StateWaitingMedicine`, prompt for the medicine name. -/
def handleAdd (b : BotState) (cid : Int) : BotState :=
  sendMessage
    { b with
        store := b.store.GetOrCreateUser cid,
        pending := setPending b.pending cid ⟨UserState.StateWaitingMedicine, "", 0, 0, 0⟩ }
    cid "Введи название лекарства:"

/-- The listing message of `handleList` (part_002 lines 588-630); the
time ordering of the lines is cosmetic and elided. -/
def listText (rs : List Reminder) : String :=
  if rs.isEmpty then "У тебя пока нет напоминаний.\n\nИспользуй /add чтобы добавить"
  else
    "📋 Твои напоминания (часовой пояс Екатеринбург):\n\n" ++
    String.join (rs.map (fun r =>
      "⏰ " ++ r.TimeString ++ " — 💊 " ++ r.medicine ++ " — 📊 " ++ r.CourseString ++ "\n"))

/-- Go `handleList`: read-only. -/
def handleList (b : BotState) (cid : Int) : BotState :=
  sendMessage b cid (listText (b.store.userReminders cid))

/-- Go `handleStop` (part_002 lines 670-684): deactivate, data retained. -/
def handleStop (b : BotState) (cid : Int) : BotState :=
  sendMessage { b with store := b.store.SetUserActive cid false } cid
    "⏸ Напоминания отключены.\n\nТвои настройки сохранены."

/-- Go `handleDonate` (part_002 lines 853-874): sends the amount menu,
touches no reminder state. -/
def handleDonate (b : BotState) (cid : Int) : BotState :=
  sendMessage b cid "Выбери сумму доната:\n\nТвоя поддержка помогает развивать бота! 💊"

/-- Go `handleStats` (part_002 lines 641-668): the admin gate
`b.adminID != 0 && chatID != b.adminID` guards the stats reply. -/
def handleStats (b : BotState) (cid : Int) : BotState :=
  if b.adminID != 0 && cid != b.adminID then
    sendMessage b cid "⛔ Эта команда доступна только администратору"
  else
    sendMessage b cid (statsText b.store)

/-- Go `handleNotify` (part_002 lines 934-965): the admin gate is
`b.adminID == 0 || chatID != b.adminID`; on success the text after
"/notify" (or a default) is broadcast to every stored user and a summary
is sent back (all sends succeed in the model, so sentCount = total). -/
def handleNotify (b : BotState) (cid : Int) (msgText : String) : BotState :=
  if b.adminID == 0 || cid != b.adminID then
    sendMessage b cid "Эта команда доступна только администратору"
  else
    let rest := goTrimSpace (if msgText.startsWith "/notify" then msgText.drop 7 else msgText)
    let t := if rest = "" then "Важное уведомление от бота!" else rest
    let ids := b.store.GetAllUsers
    sendMessage
      { b with outbox := b.outbox ++ ids.map (fun i => ⟨i, t, none⟩) } cid
      ("Уведомление отправлено " ++ toString ids.length ++ " из " ++
       toString ids.length ++ " пользователей")

/-- Decimal value of a digit list. -/
def digitsToNat (cs : List Char) : Nat :=
  cs.foldl (fun a c => a * 10 + (c.toNat - 48)) 0

/-- Go `strconv.Atoi`: an optional single sign followed by at least one
ASCII digit; anything else is an error. (Go additionally errors on int64
overflow; for this program the parsed value is only compared against
1..365, so an overflowing input and a huge in-model value lead to the
same observable outcome.) -/
def atoi (s : String) : Option Int :=
  let core : List Char × Int :=
    match s.data with
    | '-' :: rest => (rest, -1)
    | '+' :: rest => (rest, 1)
    | cs => (cs, 1)
  if core.1.length != 0 && core.1.all (fun c => c.isDigit) then
    some (core.2 * Int.ofNat (digitsToNat core.1))
  else none

/-- Go `handleCustomCourseInput` (part_002 lines 549-586): trim, parse,
range-check; re-prompt on failure without touching any state; on success
with a live dialog holding a medicine name, clear the dialog, persist the
reminder, activate the user and confirm; a missing/empty dialog yields
the restart-error message. -/
def handleCustomCourseInput (b : BotState) (cid : Int) (msgText : String) : BotState :=
  match atoi (goTrimSpace msgText) with
  | none => sendMessage b cid "Пожалуйста, введи число от 1 до 365:"
  | some n =>
    if n < 1 ∨ n > 365 then sendMessage b cid "Пожалуйста, введи число от 1 до 365:"
    else
      match List.lookup cid b.pending with
      | none => sendMessage b cid "Ошибка. Попробуй снова: /add"
      | some p =>
        if p.medicine = "" then sendMessage b cid "Ошибка. Попробуй снова: /add"
        else
          sendMessage
            { b with
                pending := delPending b.pending cid,
                store := (b.store.AddReminder cid p.medicine p.hour p.minute n).SetUserActive cid true }
            cid
            ("✅ Напоминание добавлено!\n\n💊 " ++ p.medicine ++ "\n⏰ " ++
             pad2 p.hour ++ ":" ++ pad2 p.minute ++ "\n📅 Курс: " ++ toString n ++
             " дней\n\nИспользуй /list чтобы увидеть все напоминания")

/-- Go `handleTakenConfirm` (part_002 lines 739-768): the acknowledgement
callback is the code path that advances the dose counter; the sentinel
(empty medicine) only deletes the stale message; completion triggers the
congratulation message. -/
def handleTakenConfirm (b : BotState) (cid rid : Int) : BotState :=
  let p := b.store.IncrementDoseTaken cid rid
  let med := p.1.1
  let newCount := p.1.2.1
  let total := p.1.2.2.1
  let completed := p.1.2.2.2
  if med = "" then { b with store := p.2 }
  else
    let progress :=
      if total = 0 then toString newCount ++ "/∞"
      else toString newCount ++ "/" ++ toString total
    let b1 := sendMessage { b with store := p.2 } cid
      ("✅ Принято: 💊 " ++ med ++ "\n📊 Приём: " ++ progress)
    if completed then
      sendMessage b1 cid ("🎉 Курс \"" ++ med ++ "\" завершён! Ты молодец!")
    else b1

/-- The slash commands dispatched by `HandleUpdates` (part_002 lines
208-223); `other` is any unrecognized command, which the Go switch
silently ignores (after the state reset). -/
inductive Cmd where
  | start
  | add
  | list
  | stop
  | donate
  | stats
  | notify
  | other
deriving DecidableEq, Repr

/-- The command branch of `HandleUpdates` (part_002 lines 202-225): on
any slash command the user's pending dialog is deleted first, then the
command handler runs. -/
def processCommand (b : BotState) (cid : Int) (c : Cmd) (msgText : String) : BotState :=
  let b0 : BotState := { b with pending := delPending b.pending cid }
  match c with
  | Cmd.start => handleStart b0 cid
  | Cmd.add => handleAdd b0 cid
  | Cmd.list => handleList b0 cid
  | Cmd.stop => handleStop b0 cid
  | Cmd.donate => handleDonate b0 cid
  | Cmd.stats => handleStats b0 cid
  | Cmd.notify => handleNotify b0 cid msgText
  | Cmd.other => b0

/-- Go `fmt.Sprintf("%02d:%02d", hour, minute)` (src/main.go line 104). -/
def formatTime (hh mm : Int) : String :=
  pad2 hh ++ ":" ++ pad2 mm

/-- The reminder message of the scheduler loop (src/main.go line 121). -/
def reminderText (r : Reminder) : String :=
  "⏰ Время принять: 💊 " ++ r.medicine ++ "\n📊 Приём: " ++ r.CourseString

/-- One iteration of `StartScheduler`'s ticker loop (src/main.go lines
93-125) at wall-clock (hh, mm): off-quarter minutes clear the dedupe
marker; a repeated slot key or an empty due set skips; otherwise the slot
key is recorded and every due (user, reminder) pair gets a notification
with an acknowledgement button. -/
def schedulerTick (b : BotState) (hh mm : Int) : BotState :=
  if mm != 0 && mm != 15 && mm != 30 && mm != 45 then
    { b with lastSentTime := "" }
  else
    let currentTime := formatTime hh mm
    if currentTime == b.lastSentTime then b
    else
      let rs := b.store.GetRemindersForTime hh mm
      if rs.isEmpty then b
      else
        { b with
            lastSentTime := currentTime,
            outbox := b.outbox ++ rs.flatMap (fun q =>
              q.2.map (fun r => (⟨q.1, reminderText r, some r.id⟩ : Msg))) }

/-- All (owner chat id, reminder) pairs of the store. -/
def allReminderPairs (s : Store) : List (Int × Reminder) :=
  s.users.flatMap (fun u => u.reminders.map (fun r => (u.chatID, r)))

/-- Field sanity of one stored reminder: non-negative counters and the
course invariant of spec section 3 (`doses_taken < course_days` unless
`course_days == 0`). -/
def GoodRem (r : Reminder) : Prop :=
  0 ≤ r.dosesTaken ∧ 0 ≤ r.courseDays ∧
    (r.courseDays = 0 ∨ r.dosesTaken < r.courseDays)

/-- Every stored reminder is good. -/
def GoodStore (s : Store) : Prop :=
  ∀ u ∈ s.users, ∀ r ∈ u.reminders, GoodRem r

/-- The claimed invariant by itself: every stored reminder has
`course_days == 0` or `doses_taken < course_days`. -/
def StoreInv (s : Store) : Prop :=
  ∀ u ∈ s.users, ∀ r ∈ u.reminders,
    r.courseDays = 0 ∨ r.dosesTaken < r.courseDays

/-- No stored reminder has a negative course length (true of every
reminder the dialogs create: presets are 0..90, custom input is 1..365). -/
def NonNegCourses (s : Store) : Prop :=
  ∀ u ∈ s.users, ∀ r ∈ u.reminders, 0 ≤ r.courseDays

/-- The fresh dialog record created by `handleAdd`
(Go `&PendingReminder{State: StateWaitingMedicine}`, zero values). -/
def freshPending : PendingReminder :=
  ⟨UserState.StateWaitingMedicine, "", 0, 0, 0⟩

/-- A concrete reminder due at 09:15 (finite 7-day course, no doses yet). -/
def sampleReminder : Reminder := ⟨7, "Aspirin", 9, 15, 7, 0⟩

/-- A store holding one active user (chat id 1) owning `sampleReminder`. -/
def sampleStore : Store := ⟨[⟨1, true, [sampleReminder], 8⟩]⟩

/-- A bot state over `sampleStore` with no pending dialog, no admin id,
a cleared dedupe marker and an empty outbox. -/
def sampleBot : BotState := ⟨sampleStore, [], 0, "", []⟩

/-- A reminder one dose away from completing its 3-day course. -/
def sampleReminder2 : Reminder := ⟨7, "VitaminD", 8, 30, 3, 2⟩

/-- The owner of `sampleReminder2`. -/
def sampleUser2 : User := ⟨1, true, [sampleReminder2], 8⟩

/-- A store holding only `sampleUser2`. -/
def sampleStore2 : Store := ⟨[sampleUser2]⟩

/-- A bot state with user 1 mid-dialog (waiting for the hour choice). -/
def sampleDialogBot : BotState :=
  ⟨sampleStore, [(1, ⟨UserState.StateWaitingHour, "Ibuprofen", 0, 0, 0⟩)], 0, "", []⟩

/-- A dialog that has reached the custom-course step for "Aspirin" at
09:15. -/
def sampleCustomPending : PendingReminder :=
  ⟨UserState.StateWaitingCustomCourse, "Aspirin", 9, 15, 3⟩

/-- A bot state where user 1 is in the custom-course step. -/
def sampleCustomBot : BotState :=
  ⟨sampleStore, [(1, sampleCustomPending)], 0, "", []⟩

theorem lookup_delPending (l : List (Int × PendingReminder)) (cid : Int) :
    List.lookup cid (delPending l cid) = none := by
  induction l with
  | nil => rfl
  | cons q rest ih =>
    obtain ⟨k, v⟩ := q
    by_cases h : k = cid
    · simpa [delPending, h] using ih
    · have hc : cid ≠ k := fun hcc => h hcc.symm
      simp only [delPending, List.filter_cons] at ih ⊢
      simpa [bne_iff_ne, h, List.lookup_cons, beq_false_of_ne hc] using ih

theorem lookup_setPending (l : List (Int × PendingReminder)) (cid : Int)
    (p : PendingReminder) :
    List.lookup cid (setPending l cid p) = some p := by
  simp [setPending, List.lookup]

theorem allReminderPairs_setActive (s : Store) (cid : Int) (a : Bool) :
    allReminderPairs (s.SetUserActive cid a) = allReminderPairs s := by
  obtain ⟨us⟩ := s
  simp only [Store.SetUserActive, allReminderPairs]
  induction us with
  | nil => rfl
  | cons u rest ih =>
    by_cases h : (u.chatID == cid) = true
    · simp [setActiveUsers, h]
    · simp only [setActiveUsers, h, if_false, Bool.false_eq_true, List.flatMap_cons]
      rw [ih]

theorem allReminderPairs_getOrCreate (s : Store) (cid : Int) :
    allReminderPairs (s.GetOrCreateUser cid) = allReminderPairs s := by
  unfold Store.GetOrCreateUser
  cases h : s.findUser cid with
  | some u => rfl
  | none => simp [allReminderPairs]

theorem incUsers_of_find (us : List User) (cid rid : Int) (u : User)
    (hu : us.find? (fun v => v.chatID == cid) = some u) :
    (incUsers us cid rid).1 = (incRem u.reminders rid).1 ∧
    (incUsers us cid rid).2.find? (fun v => v.chatID == cid) =
      some { u with reminders := (incRem u.reminders rid).2 } := by
  induction us with
  | nil => simp [List.find?] at hu
  | cons v rest ih =>
    by_cases h : (v.chatID == cid) = true
    · rw [List.find?_cons_of_pos rest h] at hu
      injection hu with hu
      subst hu
      refine ⟨by simp [incUsers, h], ?_⟩
      simp only [incUsers, h, if_true]
      exact List.find?_cons_of_pos _ h
    · rw [List.find?_cons_of_neg rest h] at hu
      obtain ⟨ih1, ih2⟩ := ih hu
      refine ⟨by simp [incUsers, h, ih1], ?_⟩
      simp only [incUsers, h, if_false, Bool.false_eq_true]
      rw [List.find?_cons_of_neg (p := fun w : User => w.chatID == cid) _ h]
      exact ih2

theorem addRemUsers_find (us : List User) (cid : Int) (med : String)
    (hh mm cd : Int) (u : User)
    (hu : us.find? (fun v => v.chatID == cid) = some u) :
    (addRemUsers us cid med hh mm cd).find? (fun v => v.chatID == cid) =
      some { u with
              reminders := u.reminders ++ [⟨u.nextID, med, hh, mm, cd, 0⟩],
              nextID := u.nextID + 1 } := by
  induction us with
  | nil => simp [List.find?] at hu
  | cons v rest ih =>
    by_cases h : (v.chatID == cid) = true
    · rw [List.find?_cons_of_pos rest h] at hu
      injection hu with hu
      subst hu
      simp only [addRemUsers, h, if_true]
      exact List.find?_cons_of_pos _ h
    · rw [List.find?_cons_of_neg rest h] at hu
      simp only [addRemUsers, h, if_false, Bool.false_eq_true]
      rw [List.find?_cons_of_neg (p := fun w : User => w.chatID == cid) _ h]
      exact ih hu

theorem setActiveUsers_find (us : List User) (cid : Int) (a : Bool) (u : User)
    (hu : us.find? (fun v => v.chatID == cid) = some u) :
    (setActiveUsers us cid a).find? (fun v => v.chatID == cid) =
      some { u with active := a } := by
  induction us with
  | nil => simp [List.find?] at hu
  | cons v rest ih =>
    by_cases h : (v.chatID == cid) = true
    · rw [List.find?_cons_of_pos rest h] at hu
      injection hu with hu
      subst hu
      simp only [setActiveUsers, h, if_true]
      exact List.find?_cons_of_pos _ h
    · rw [List.find?_cons_of_neg rest h] at hu
      simp only [setActiveUsers, h, if_false, Bool.false_eq_true]
      rw [List.find?_cons_of_neg (p := fun w : User => w.chatID == cid) _ h]
      exact ih hu

theorem incRem_good (l : List Reminder) (rid : Int)
    (h : ∀ r ∈ l, GoodRem r) : ∀ r ∈ (incRem l rid).2, GoodRem r := by
  induction l with
  | nil => simp [incRem]
  | cons a rest ih =>
    by_cases ha : (a.id == rid) = true
    · simp only [incRem, ha, if_true]
      by_cases hc : ({ a with dosesTaken := a.dosesTaken + 1 } : Reminder).IsCompleted = true
      · simp only [hc, if_true]
        exact fun r hr => h r (List.mem_cons_of_mem _ hr)
      · simp only [hc, if_false, Bool.false_eq_true]
        intro r hr
        rcases List.mem_cons.mp hr with h1 | h1
        · subst h1
          obtain ⟨hd, hcd, hinv⟩ := h a (List.mem_cons_self _ _)
          have hc' : ¬(a.courseDays > 0 ∧ a.dosesTaken + 1 ≥ a.courseDays) := by
            simpa [Reminder.IsCompleted] using hc
          refine ⟨by simpa using by omega, by simpa using hcd, ?_⟩
          simp only []
          omega
        · exact h r (List.mem_cons_of_mem _ h1)
    · simp only [incRem, ha, if_false, Bool.false_eq_true]
      intro r hr
      rcases List.mem_cons.mp hr with h1 | h1
      · subst h1; exact h r (List.mem_cons_self _ _)
      · exact ih (fun r hr => h r (List.mem_cons_of_mem _ hr)) r h1

theorem delRem_subset (l : List Reminder) (rid : Int) :
    ∀ r ∈ delRem l rid, r ∈ l := by
  induction l with
  | nil => simp [delRem]
  | cons a rest ih =>
    by_cases ha : (a.id == rid) = true
    · simp only [delRem, ha, if_true]
      exact fun r hr => List.mem_cons_of_mem _ hr
    · simp only [delRem, ha, if_false, Bool.false_eq_true]
      intro r hr
      rcases List.mem_cons.mp hr with h1 | h1
      · subst h1; exact List.mem_cons_self _ _
      · exact List.mem_cons_of_mem _ (ih r h1)

theorem incUsers_good (us : List User) (cid rid : Int)
    (h : ∀ u ∈ us, ∀ r ∈ u.reminders, GoodRem r) :
    ∀ u ∈ (incUsers us cid rid).2, ∀ r ∈ u.reminders, GoodRem r := by
  induction us with
  | nil => simp [incUsers]
  | cons v rest ih =>
    by_cases hv : (v.chatID == cid) = true
    · simp only [incUsers, hv, if_true]
      intro u hu r hr
      rcases List.mem_cons.mp hu with h1 | h1
      · subst h1
        exact incRem_good _ _ (h v (List.mem_cons_self _ _)) r hr
      · exact h u (List.mem_cons_of_mem _ h1) r hr
    · simp only [incUsers, hv, if_false, Bool.false_eq_true]
      intro u hu r hr
      rcases List.mem_cons.mp hu with h1 | h1
      · subst h1; exact h _ (List.mem_cons_self _ _) r hr
      · exact ih (fun u hu => h u (List.mem_cons_of_mem _ hu)) u h1 r hr

theorem addRemUsers_good (us : List User) (cid : Int) (med : String)
    (hh mm cd : Int) (hcd : 0 ≤ cd)
    (h : ∀ u ∈ us, ∀ r ∈ u.reminders, GoodRem r) :
    ∀ u ∈ addRemUsers us cid med hh mm cd, ∀ r ∈ u.reminders, GoodRem r := by
  induction us with
  | nil => simp [addRemUsers]
  | cons v rest ih =>
    by_cases hv : (v.chatID == cid) = true
    · simp only [addRemUsers, hv, if_true]
      intro u hu r hr
      rcases List.mem_cons.mp hu with h1 | h1
      · subst h1
        rcases List.mem_append.mp hr with h2 | h2
        · exact h v (List.mem_cons_self _ _) r h2
        · rcases List.mem_singleton.mp h2 with h3
          subst h3
          exact ⟨le_refl 0, hcd, by show cd = 0 ∨ (0:Int) < cd; omega⟩
      · exact h u (List.mem_cons_of_mem _ h1) r hr
    · simp only [addRemUsers, hv, if_false, Bool.false_eq_true]
      intro u hu r hr
      rcases List.mem_cons.mp hu with h1 | h1
      · subst h1; exact h _ (List.mem_cons_self _ _) r hr
      · exact ih (fun u hu => h u (List.mem_cons_of_mem _ hu)) u h1 r hr

theorem delRemUsers_good (us : List User) (cid rid : Int)
    (h : ∀ u ∈ us, ∀ r ∈ u.reminders, GoodRem r) :
    ∀ u ∈ delRemUsers us cid rid, ∀ r ∈ u.reminders, GoodRem r := by
  induction us with
  | nil => simp [delRemUsers]
  | cons v rest ih =>
    by_cases hv : (v.chatID == cid) = true
    · simp only [delRemUsers, hv, if_true]
      intro u hu r hr
      rcases List.mem_cons.mp hu with h1 | h1
      · subst h1
        exact h v (List.mem_cons_self _ _) r (delRem_subset _ _ r hr)
      · exact h u (List.mem_cons_of_mem _ h1) r hr
    · simp only [delRemUsers, hv, if_false, Bool.false_eq_true]
      intro u hu r hr
      rcases List.mem_cons.mp hu with h1 | h1
      · subst h1; exact h _ (List.mem_cons_self _ _) r hr
      · exact ih (fun u hu => h u (List.mem_cons_of_mem _ hu)) u h1 r hr

theorem mem_dueFor (u : User) (hh mm : Int) (r : Reminder) :
    r ∈ dueFor u hh mm ↔
      u.active = true ∧ r ∈ u.reminders ∧ r.hour = hh ∧ r.minute = mm ∧
        r.IsCompleted = false := by
  unfold dueFor
  by_cases ha : u.active = true
  · simp [ha, List.mem_filter, Bool.and_eq_true, Bool.not_eq_true', and_assoc]
  · simp [ha]

theorem mem_getRemindersForTime (s : Store) (hh mm cid : Int) (l : List Reminder) :
    (cid, l) ∈ s.GetRemindersForTime hh mm ↔
      ∃ u ∈ s.users, u.chatID = cid ∧ l = dueFor u hh mm ∧ l ≠ [] := by
  unfold Store.GetRemindersForTime
  rw [List.mem_filterMap]
  constructor
  · rintro ⟨u, hu, hfu⟩
    by_cases he : (dueFor u hh mm).isEmpty = true
    · simp [he] at hfu
    · simp only [he, if_false, Bool.false_eq_true, Option.some.injEq, Prod.mk.injEq] at hfu
      refine ⟨u, hu, hfu.1, hfu.2.symm, ?_⟩
      rw [hfu.2] at he
      simpa [List.isEmpty_iff] using he
  · rintro ⟨u, hu, hcid, hl, hne⟩
    refine ⟨u, hu, ?_⟩
    have he : (dueFor u hh mm).isEmpty = false := by
      rw [← hl]; simpa [List.isEmpty_iff] using hne
    simp [he, hcid, hl]

theorem incRem_boundary (l : List Reminder) (rid : Int) (r : Reminder)
    (hr : r ∈ l) (hid : r.id = rid) (hnd : (l.map Reminder.id).Nodup)
    (hcd : 0 < r.courseDays) (hdt : r.dosesTaken = r.courseDays - 1) :
    (incRem l rid).1 = (r.medicine, r.courseDays, r.courseDays, true) ∧
    ∀ r' ∈ (incRem l rid).2, r'.id ≠ rid := by
  induction l with
  | nil => simp at hr
  | cons a rest ih =>
    rw [List.map_cons, List.nodup_cons] at hnd
    obtain ⟨hna, hndr⟩ := hnd
    by_cases ha : (a.id == rid) = true
    · have haid : a.id = rid := by simpa using ha
      have har : r = a := by
        rcases List.mem_cons.mp hr with h1 | h1
        · exact h1
        · exact absurd (by rw [haid, ← hid]; exact List.mem_map_of_mem _ h1) hna
      subst har
      have hcomp : ({ r with dosesTaken := r.dosesTaken + 1 } : Reminder).IsCompleted
          = true := by
        simp only [Reminder.IsCompleted, Bool.and_eq_true, decide_eq_true_eq]
        constructor <;> [exact hcd; omega]
      have hsum : r.dosesTaken + 1 = r.courseDays := by omega
      constructor
      · have hcomp' := hcomp
        rw [hsum] at hcomp'
        simp [incRem, ha, hcomp', hsum]
      · simp only [incRem, ha, if_true, hcomp]
        intro r' hr' hcontra
        exact hna (by rw [haid, ← hcontra]; exact List.mem_map_of_mem _ hr')
    · have hane : a.id ≠ rid := by simpa using ha
      have hr1 : r ∈ rest := by
        rcases List.mem_cons.mp hr with h1 | h1
        · exact absurd (h1 ▸ hid) hane
        · exact h1
      obtain ⟨ih1, ih2⟩ := ih hr1 hndr
      constructor
      · simp [incRem, ha, ih1]
      · simp only [incRem, ha, if_false, Bool.false_eq_true]
        intro r' hr'
        rcases List.mem_cons.mp hr' with h1 | h1
        · rw [h1]; exact hane
        · exact ih2 r' h1

theorem incRem_not_found (l : List Reminder) (rid : Int)
    (h : ∀ r ∈ l, r.id ≠ rid) : (incRem l rid).1 = ("", 0, 0, false) := by
  induction l with
  | nil => rfl
  | cons a rest ih =>
    have ha : (a.id == rid) = false :=
      beq_eq_false_iff_ne.mpr (h a (List.mem_cons_self _ _))
    simp only [incRem, ha, if_false, Bool.false_eq_true]
    exact ih (fun r hr => h r (List.mem_cons_of_mem _ hr))

theorem quarterGuard_false_of_quarter (mm : Int)
    (hq : mm = 0 ∨ mm = 15 ∨ mm = 30 ∨ mm = 45) :
    (mm != 0 && mm != 15 && mm != 30 && mm != 45) = false := by
  rcases hq with h | h | h | h <;> subst h <;> decide

/-- C9: a scheduler tick by itself never mutates stored user or reminder
state: for every bot state and wall-clock reading, the tick leaves the
repository (every user's active flag and every reminder's fields) and the
pending-dialog map exactly as they were; it only updates the dedupe
marker and appends outbound messages. The dose counter is advanced only
by `handleTakenConfirm` through `Store.IncrementDoseTaken`, which no tick
path calls. -/
theorem scheduler_tick_mutates_no_stored_state (b : BotState) (hh mm : Int) :
    (schedulerTick b hh mm).store = b.store ∧
    (schedulerTick b hh mm).pending = b.pending := by
  unfold schedulerTick
  by_cases h1 : (mm != 0 && mm != 15 && mm != 30 && mm != 45) = true
  · simp [h1]
  · simp only [h1, if_false, Bool.false_eq_true]
    by_cases h2 : (formatTime hh mm == b.lastSentTime) = true
    · simp [h2]
    · simp only [h2, if_false, Bool.false_eq_true]
      by_cases h3 : (b.store.GetRemindersForTime hh mm).isEmpty = true
      · simp [h3]
      · simp [h3]

/-- C3: at most one delivery pass per quarter-hour slot: if a tick at a
quarter-hour (hh, mm) delivered (changed the outbox), an immediately
following tick observing the same (hh, mm) is a complete no-op. -/
theorem slot_fires_at_most_once (b : BotState) (hh mm : Int)
    (hq : mm = 0 ∨ mm = 15 ∨ mm = 30 ∨ mm = 45)
    (hfired : (schedulerTick b hh mm).outbox ≠ b.outbox) :
    schedulerTick (schedulerTick b hh mm) hh mm = schedulerTick b hh mm := by
  have hg := quarterGuard_false_of_quarter mm hq
  by_cases h2 : (formatTime hh mm == b.lastSentTime) = true
  · exact absurd (by unfold schedulerTick; simp [hg, h2]) hfired
  · by_cases h3 : (b.store.GetRemindersForTime hh mm).isEmpty = true
    · exact absurd (by unfold schedulerTick; simp [hg, h2, h3]) hfired
    · have hstep : schedulerTick b hh mm =
          { b with
              lastSentTime := formatTime hh mm,
              outbox := b.outbox ++ (b.store.GetRemindersForTime hh mm).flatMap
                (fun q => q.2.map (fun r => (⟨q.1, reminderText r, some r.id⟩ : Msg))) } := by
        unfold schedulerTick
        simp [hg, h2, h3]
      rw [hstep]
      unfold schedulerTick
      simp [hg]

theorem slot_fires_at_most_once_witness :
    ((15 : Int) = 0 ∨ (15 : Int) = 15 ∨ (15 : Int) = 30 ∨ (15 : Int) = 45) ∧
    (schedulerTick sampleBot 9 15).outbox ≠ sampleBot.outbox ∧
    schedulerTick (schedulerTick sampleBot 9 15) 9 15 = schedulerTick sampleBot 9 15 :=
  ⟨by decide, by decide,
    slot_fires_at_most_once sampleBot 9 15 (by decide) (by decide)⟩

/-- C1 counterexample: a tick at 09:15 over a store with one due
(user, reminder) pair records the slot key and delivers the notification,
but the pair's doses_taken counter is NOT advanced as part of the tick
cycle: the stored reminder still has doses_taken = 0 afterwards. -/
theorem scheduler_tick_does_not_advance_counter :
    (schedulerTick sampleBot 9 15).lastSentTime = formatTime 9 15 ∧
    (schedulerTick sampleBot 9 15).outbox =
      [⟨1, reminderText sampleReminder, some 7⟩] ∧
    (schedulerTick sampleBot 9 15).store.userReminders 1 = [sampleReminder] ∧
    sampleReminder.dosesTaken = 0 := by
  refine ⟨by decide, by decide, by decide, by decide⟩

/-- C1 amended: in every tick whose quarter-hour slot is new and has a
non-empty due set, the scheduler records the slot key as last-fired and
delivers a notification (with the acknowledgement button bound to the
reminder id) for every (user, reminder) pair returned by the due query;
the dose counter is not touched by the tick — it is advanced only when
the user acknowledges through the taken callback. -/
theorem scheduler_tick_delivers_all_due (b : BotState) (hh mm : Int)
    (hq : mm = 0 ∨ mm = 15 ∨ mm = 30 ∨ mm = 45)
    (hnew : formatTime hh mm ≠ b.lastSentTime)
    (hne : b.store.GetRemindersForTime hh mm ≠ []) :
    (schedulerTick b hh mm).lastSentTime = formatTime hh mm ∧
    (schedulerTick b hh mm).store = b.store ∧
    ∀ cid l, (cid, l) ∈ b.store.GetRemindersForTime hh mm → ∀ r ∈ l,
      (⟨cid, reminderText r, some r.id⟩ : Msg) ∈ (schedulerTick b hh mm).outbox := by
  have hg := quarterGuard_false_of_quarter mm hq
  have h2 : (formatTime hh mm == b.lastSentTime) = false := beq_eq_false_iff_ne.mpr hnew
  have h3 : (b.store.GetRemindersForTime hh mm).isEmpty = false := by
    simpa [List.isEmpty_iff] using hne
  have hstep : schedulerTick b hh mm =
      { b with
          lastSentTime := formatTime hh mm,
          outbox := b.outbox ++ (b.store.GetRemindersForTime hh mm).flatMap
            (fun q => q.2.map (fun r => (⟨q.1, reminderText r, some r.id⟩ : Msg))) } := by
    unfold schedulerTick
    simp [hg, h2, h3]
  rw [hstep]
  refine ⟨rfl, rfl, ?_⟩
  intro cid l hmem r hrl
  simp only [List.mem_append]
  right
  rw [List.mem_flatMap]
  exact ⟨(cid, l), hmem, List.mem_map_of_mem _ hrl⟩

theorem scheduler_tick_delivers_all_due_witness :
    ((15 : Int) = 0 ∨ (15 : Int) = 15 ∨ (15 : Int) = 30 ∨ (15 : Int) = 45) ∧
    formatTime 9 15 ≠ sampleBot.lastSentTime ∧
    sampleBot.store.GetRemindersForTime 9 15 ≠ [] ∧
    ((schedulerTick sampleBot 9 15).lastSentTime = formatTime 9 15 ∧
     (schedulerTick sampleBot 9 15).store = sampleBot.store ∧
     ∀ cid l, (cid, l) ∈ sampleBot.store.GetRemindersForTime 9 15 → ∀ r ∈ l,
       (⟨cid, reminderText r, some r.id⟩ : Msg) ∈ (schedulerTick sampleBot 9 15).outbox) :=
  ⟨by decide, by decide, by decide,
    scheduler_tick_delivers_all_due sampleBot 9 15 (by decide) (by decide) (by decide)⟩

/-- C2: the course invariant (`course_days == 0` or
`doses_taken < course_days` for every stored reminder) holds in any
well-formed store and is preserved by every mutating repository
operation: adding a reminder (created with doses_taken = 0 and a
non-negative course), the atomic increment-and-delete-on-completion, and
deletion; the due-selection query mutates nothing and never exposes a
violating reminder. Increment and completion-deletion are one step of
`Store.IncrementDoseTaken`, so no state in which a finite course has
doses_taken ≥ course_days is ever produced. -/
theorem course_invariant_maintained (s : Store) (cid rid : Int) (med : String)
    (hh mm cd : Int) (hcd : 0 ≤ cd) (hgood : GoodStore s) :
    StoreInv s ∧
    GoodStore (s.AddReminder cid med hh mm cd) ∧
    GoodStore (s.IncrementDoseTaken cid rid).2 ∧
    GoodStore (s.DeleteReminder cid rid) ∧
    (∀ p ∈ s.GetRemindersForTime hh mm, ∀ r ∈ p.2,
       r.courseDays = 0 ∨ r.dosesTaken < r.courseDays) := by
  refine ⟨?_, ?_, ?_, ?_, ?_⟩
  · exact fun u hu r hr => (hgood u hu r hr).2.2
  · exact fun u hu r hr => addRemUsers_good s.users cid med hh mm cd hcd hgood u hu r hr
  · exact fun u hu r hr => incUsers_good s.users cid rid hgood u hu r hr
  · exact fun u hu r hr => delRemUsers_good s.users cid rid hgood u hu r hr
  · intro p hp r hr
    obtain ⟨u, hu, _, hl, _⟩ :=
      (mem_getRemindersForTime s hh mm p.1 p.2).mp hp
    rw [hl] at hr
    obtain ⟨_, hrm, _⟩ := (mem_dueFor u hh mm r).mp hr
    exact (hgood u hu r hrm).2.2

theorem course_invariant_maintained_witness :
    (0 : Int) ≤ 7 ∧ GoodStore sampleStore ∧
    (StoreInv sampleStore ∧
     GoodStore (sampleStore.AddReminder 1 "B" 9 15 7) ∧
     GoodStore (sampleStore.IncrementDoseTaken 1 7).2 ∧
     GoodStore (sampleStore.DeleteReminder 1 7) ∧
     (∀ p ∈ sampleStore.GetRemindersForTime 9 15, ∀ r ∈ p.2,
        r.courseDays = 0 ∨ r.dosesTaken < r.courseDays)) :=
  ⟨by decide, by unfold GoodStore GoodRem; decide,
    course_invariant_maintained sampleStore 1 7 "B" 9 15 7 (by decide)
      (by unfold GoodStore GoodRem; decide)⟩

/-- C4: the due-reminders query returns exactly the reminders whose
(hour, minute) match, whose owner is active, and whose course is not
completed (`course_days == 0` or `doses_taken < course_days`); in
particular it never returns a reminder of an inactive user nor a
completed one. Stated for stores with non-negative course lengths (the
only ones the program creates), where the code's completion test agrees
with the claim's disjunction. -/
theorem due_query_characterization (s : Store) (hh mm cid : Int) (r : Reminder)
    (hnn : NonNegCourses s) :
    (∃ l, (cid, l) ∈ s.GetRemindersForTime hh mm ∧ r ∈ l) ↔
      (∃ u ∈ s.users, u.chatID = cid ∧ u.active = true ∧ r ∈ u.reminders ∧
        r.hour = hh ∧ r.minute = mm ∧
        (r.courseDays = 0 ∨ r.dosesTaken < r.courseDays)) := by
  constructor
  · rintro ⟨l, hl, hrl⟩
    obtain ⟨u, hu, hcid, hldef, _⟩ := (mem_getRemindersForTime s hh mm cid l).mp hl
    rw [hldef] at hrl
    obtain ⟨ha, hrm, hhh, hmm, hnc⟩ := (mem_dueFor u hh mm r).mp hrl
    refine ⟨u, hu, hcid, ha, hrm, hhh, hmm, ?_⟩
    have h0 := hnn u hu r hrm
    have hnc' : ¬(r.courseDays > 0 ∧ r.dosesTaken ≥ r.courseDays) := by
      intro hcon
      rw [Reminder.IsCompleted] at hnc
      simp [hcon.1, hcon.2] at hnc
    omega
  · rintro ⟨u, hu, hcid, ha, hrm, hhh, hmm, hdisj⟩
    have hnc : r.IsCompleted = false := by
      rw [Reminder.IsCompleted]
      by_cases h1 : r.courseDays > 0
      · have h2 : ¬(r.dosesTaken ≥ r.courseDays) := by omega
        rw [decide_eq_true h1, decide_eq_false h2, Bool.and_false]
      · rw [decide_eq_false h1, Bool.false_and]
    have hrdue : r ∈ dueFor u hh mm :=
      (mem_dueFor u hh mm r).mpr ⟨ha, hrm, hhh, hmm, hnc⟩
    refine ⟨dueFor u hh mm, ?_, hrdue⟩
    exact (mem_getRemindersForTime s hh mm cid _).mpr
      ⟨u, hu, hcid, rfl, List.ne_nil_of_mem hrdue⟩

theorem due_query_characterization_witness :
    NonNegCourses sampleStore ∧
    ((∃ l, ((1 : Int), l) ∈ sampleStore.GetRemindersForTime 9 15 ∧ sampleReminder ∈ l) ↔
      (∃ u ∈ sampleStore.users, u.chatID = 1 ∧ u.active = true ∧
        sampleReminder ∈ u.reminders ∧ sampleReminder.hour = 9 ∧
        sampleReminder.minute = 15 ∧
        (sampleReminder.courseDays = 0 ∨
          sampleReminder.dosesTaken < sampleReminder.courseDays))) :=
  ⟨by unfold NonNegCourses; decide,
    due_query_characterization sampleStore 9 15 1 sampleReminder
      (by unfold NonNegCourses; decide)⟩

/-- C5: incrementing a reminder sitting at `course_days - 1` of a finite
course returns the completed flag with newCount = course_days; afterwards
no reminder with that id exists for the user (so list and due-selection,
which read the same per-user list, cannot find it), and a further
increment on the same id returns the empty-medicine-name sentinel tuple
rather than an error. -/
theorem increment_at_completion_boundary (s : Store) (cid rid : Int)
    (u : User) (r : Reminder)
    (hu : s.findUser cid = some u) (hr : r ∈ u.reminders) (hid : r.id = rid)
    (hnd : (u.reminders.map Reminder.id).Nodup)
    (hcd : 0 < r.courseDays) (hdt : r.dosesTaken = r.courseDays - 1) :
    (s.IncrementDoseTaken cid rid).1 = (r.medicine, r.courseDays, r.courseDays, true) ∧
    (∀ r' ∈ (s.IncrementDoseTaken cid rid).2.userReminders cid, r'.id ≠ rid) ∧
    ((s.IncrementDoseTaken cid rid).2.IncrementDoseTaken cid rid).1 =
      ("", 0, 0, false) := by
  obtain ⟨hb1, hb2⟩ := incRem_boundary u.reminders rid r hr hid hnd hcd hdt
  obtain ⟨hi1, hi2⟩ := incUsers_of_find s.users cid rid u hu
  have hur : (s.IncrementDoseTaken cid rid).2.userReminders cid =
      (incRem u.reminders rid).2 := by
    show Store.userReminders ⟨(incUsers s.users cid rid).2⟩ cid = _
    unfold Store.userReminders Store.findUser
    rw [show (Store.mk (incUsers s.users cid rid).2).users =
          (incUsers s.users cid rid).2 from rfl, hi2]
  refine ⟨by rw [show (s.IncrementDoseTaken cid rid).1 =
      (incUsers s.users cid rid).1 from rfl, hi1, hb1], ?_, ?_⟩
  · rw [hur]
    exact hb2
  · have hfind2 : ((s.IncrementDoseTaken cid rid).2).users.find?
        (fun v => v.chatID == cid) =
        some { u with reminders := (incRem u.reminders rid).2 } := hi2
    obtain ⟨hj1, _⟩ := incUsers_of_find ((s.IncrementDoseTaken cid rid).2).users cid rid
      _ hfind2
    rw [show ((s.IncrementDoseTaken cid rid).2.IncrementDoseTaken cid rid).1 =
          (incUsers ((s.IncrementDoseTaken cid rid).2).users cid rid).1 from rfl, hj1]
    exact incRem_not_found _ _ hb2

theorem increment_at_completion_boundary_witness :
    (sampleStore2.findUser 1 = some sampleUser2 ∧
     sampleReminder2 ∈ sampleUser2.reminders ∧
     sampleReminder2.id = 7 ∧
     (sampleUser2.reminders.map Reminder.id).Nodup ∧
     0 < sampleReminder2.courseDays ∧
     sampleReminder2.dosesTaken = sampleReminder2.courseDays - 1) ∧
    ((sampleStore2.IncrementDoseTaken 1 7).1 =
       (sampleReminder2.medicine, sampleReminder2.courseDays,
        sampleReminder2.courseDays, true) ∧
     (∀ r' ∈ (sampleStore2.IncrementDoseTaken 1 7).2.userReminders 1, r'.id ≠ 7) ∧
     ((sampleStore2.IncrementDoseTaken 1 7).2.IncrementDoseTaken 1 7).1 =
       ("", 0, 0, false)) :=
  ⟨⟨by decide, by decide, by decide, by decide, by decide, by decide⟩,
    increment_at_completion_boundary sampleStore2 1 7 sampleUser2 sampleReminder2
      (by decide) (by decide) (by decide) (by decide) (by decide) (by decide)⟩

/-- C6: with an admin identity configured (admin id non-zero), every
other caller invoking the stats command or the broadcast command gets
only the explicit permission-denied reply: the whole resulting state is
the old one with the denial message appended, so no stats computation is
exposed and no broadcast happens. -/
theorem nonadmin_denied (b : BotState) (cid : Int) (t : String)
    (hadm : b.adminID ≠ 0) (hcid : cid ≠ b.adminID) :
    handleStats b cid =
      { b with outbox := b.outbox ++
          [⟨cid, "⛔ Эта команда доступна только администратору", none⟩] } ∧
    handleNotify b cid t =
      { b with outbox := b.outbox ++
          [⟨cid, "Эта команда доступна только администратору", none⟩] } := by
  have hc1 : (b.adminID != 0 && cid != b.adminID) = true := by
    simp [bne_iff_ne, hadm, hcid]
  have hc2 : (b.adminID == 0 || cid != b.adminID) = true := by
    simp [bne_iff_ne, hcid]
  constructor
  · unfold handleStats
    rw [hc1]
    rfl
  · unfold handleNotify
    rw [hc2]
    rfl

theorem nonadmin_denied_witness :
    ((99 : Int) ≠ 0 ∧ (5 : Int) ≠ 99) ∧
    (handleStats ⟨sampleStore, [], 99, "", []⟩ 5 =
      { (⟨sampleStore, [], 99, "", []⟩ : BotState) with outbox :=
          [⟨5, "⛔ Эта команда доступна только администратору", none⟩] } ∧
     handleNotify ⟨sampleStore, [], 99, "", []⟩ 5 "/notify hi" =
      { (⟨sampleStore, [], 99, "", []⟩ : BotState) with outbox :=
          [⟨5, "Эта команда доступна только администратору", none⟩] }) :=
  ⟨⟨by decide, by decide⟩,
    nonadmin_denied ⟨sampleStore, [], 99, "", []⟩ 5 "/notify hi"
      (by decide) (by decide)⟩

/-- C10: when no admin identity is configured (admin id = 0) the two
admin commands are asymmetric: the broadcast command is denied for every
caller, while the stats command serves the stats text to every caller. -/
theorem no_admin_asymmetry (b : BotState) (cid : Int) (t : String)
    (hadm : b.adminID = 0) :
    handleNotify b cid t =
      { b with outbox := b.outbox ++
          [⟨cid, "Эта команда доступна только администратору", none⟩] } ∧
    handleStats b cid =
      { b with outbox := b.outbox ++ [⟨cid, statsText b.store, none⟩] } := by
  have hc1 : (b.adminID == 0 || cid != b.adminID) = true := by
    simp [hadm]
  have hc2 : (b.adminID != 0 && cid != b.adminID) = false := by
    simp [bne_iff_ne, hadm]
  constructor
  · unfold handleNotify
    rw [hc1]
    rfl
  · unfold handleStats
    rw [hc2]
    rfl

theorem no_admin_asymmetry_witness :
    sampleBot.adminID = 0 ∧
    (handleNotify sampleBot 5 "/notify hi" =
      { sampleBot with outbox :=
          [⟨5, "Эта команда доступна только администратору", none⟩] } ∧
     handleStats sampleBot 5 =
      { sampleBot with outbox := [⟨5, statsText sampleBot.store, none⟩] }) :=
  ⟨by decide, no_admin_asymmetry sampleBot 5 "/notify hi" (by decide)⟩

/-- C7: a slash command always wins over a pending dialog: processing any
command first discards the user's pending dialog (processing from any
dialog state equals processing after the dialog is deleted), afterwards
the user has no pending dialog (except that the add command installs a
fresh waiting-medicine one), and no reminder is persisted by the command
dispatch — the stored (user, reminder) pairs are exactly those of before,
so nothing from the discarded partial dialog reaches the repository. -/
theorem command_wins_over_dialog (b : BotState) (cid : Int) (c : Cmd) (t : String) :
    processCommand b cid c t =
      processCommand { b with pending := delPending b.pending cid } cid c t ∧
    (c = Cmd.add →
      List.lookup cid (processCommand b cid c t).pending = some freshPending) ∧
    (c ≠ Cmd.add →
      List.lookup cid (processCommand b cid c t).pending = none) ∧
    allReminderPairs (processCommand b cid c t).store = allReminderPairs b.store := by
  have hdel : delPending (delPending b.pending cid) cid = delPending b.pending cid := by
    simp [delPending, List.filter_filter]
  refine ⟨?_, ?_, ?_, ?_⟩
  · cases c <;> simp [processCommand, hdel]
  · intro hc
    subst hc
    simp [processCommand, handleAdd, sendMessage, setPending, List.lookup, freshPending]
  · intro hc
    cases c with
    | start => simp [processCommand, handleStart, sendMessage, lookup_delPending]
    | add => exact absurd rfl hc
    | list => simp [processCommand, handleList, sendMessage, lookup_delPending]
    | stop => simp [processCommand, handleStop, sendMessage, lookup_delPending]
    | donate => simp [processCommand, handleDonate, sendMessage, lookup_delPending]
    | stats =>
      simp only [processCommand, handleStats]
      split <;> simp [sendMessage, lookup_delPending]
    | notify =>
      simp only [processCommand, handleNotify]
      split <;> simp [sendMessage, lookup_delPending]
    | other => simp [processCommand, lookup_delPending]
  · cases c with
    | start =>
      simp only [processCommand, handleStart, sendMessage]
      rw [allReminderPairs_setActive, allReminderPairs_getOrCreate]
    | add =>
      simp only [processCommand, handleAdd, sendMessage]
      rw [allReminderPairs_getOrCreate]
    | list => rfl
    | stop =>
      simp only [processCommand, handleStop, sendMessage]
      rw [allReminderPairs_setActive]
    | donate => rfl
    | stats =>
      simp only [processCommand, handleStats]
      split <;> rfl
    | notify =>
      simp only [processCommand, handleNotify]
      split <;> rfl
    | other => rfl

theorem command_wins_over_dialog_witness :
    (Cmd.list ≠ Cmd.add) ∧
    (processCommand sampleDialogBot 1 Cmd.list "/list" =
       processCommand { sampleDialogBot with
         pending := delPending sampleDialogBot.pending 1 } 1 Cmd.list "/list" ∧
     (Cmd.list = Cmd.add →
       List.lookup 1 (processCommand sampleDialogBot 1 Cmd.list "/list").pending =
         some freshPending) ∧
     (Cmd.list ≠ Cmd.add →
       List.lookup 1 (processCommand sampleDialogBot 1 Cmd.list "/list").pending =
         none) ∧
     allReminderPairs (processCommand sampleDialogBot 1 Cmd.list "/list").store =
       allReminderPairs sampleDialogBot.store) :=
  ⟨by decide, command_wins_over_dialog sampleDialogBot 1 Cmd.list "/list"⟩

/-- C8: in state waiting_custom_course (a live dialog with a medicine
name, owned by an existing user): if the trimmed text fails to parse as
an integer or parses outside [1,365], the handler only appends the
re-prompt message — the pending dialog (still waiting_custom_course) and
the store are untouched; if it parses to n in [1,365], the dialog is
cleared (state back to none) and exactly one reminder with course length
n (and doses_taken = 0) is appended to the user's stored reminders. -/
theorem custom_course_input_spec (b : BotState) (cid : Int) (msgText : String)
    (p : PendingReminder) (u : User)
    (hp : List.lookup cid b.pending = some p)
    (hstate : p.state = UserState.StateWaitingCustomCourse)
    (hmed : p.medicine ≠ "")
    (hu : b.store.findUser cid = some u) :
    ((atoi (goTrimSpace msgText) = none ∨
        (∃ n, atoi (goTrimSpace msgText) = some n ∧ (n < 1 ∨ n > 365))) →
      handleCustomCourseInput b cid msgText =
        { b with outbox := b.outbox ++
            [⟨cid, "Пожалуйста, введи число от 1 до 365:", none⟩] }) ∧
    (∀ n, atoi (goTrimSpace msgText) = some n → 1 ≤ n → n ≤ 365 →
      List.lookup cid (handleCustomCourseInput b cid msgText).pending = none ∧
      (handleCustomCourseInput b cid msgText).store.userReminders cid =
        u.reminders ++ [⟨u.nextID, p.medicine, p.hour, p.minute, n, 0⟩]) := by
  constructor
  · rintro (hnone | ⟨n, hn, hrange⟩)
    · unfold handleCustomCourseInput
      rw [hnone]
      rfl
    · unfold handleCustomCourseInput
      simp only [hn]
      rw [if_pos hrange]
      rfl
  · intro n hn h1 h365
    have hno : ¬(n < 1 ∨ n > 365) := by omega
    unfold handleCustomCourseInput
    simp only [hn]
    rw [if_neg hno]
    simp only [hp]
    rw [if_neg hmed]
    constructor
    · simp [sendMessage, lookup_delPending]
    · have hfa := addRemUsers_find b.store.users cid p.medicine p.hour p.minute n u hu
      have hfs := setActiveUsers_find
        (addRemUsers b.store.users cid p.medicine p.hour p.minute n) cid true _ hfa
      simp only [sendMessage]
      show Store.userReminders
        ⟨setActiveUsers (addRemUsers b.store.users cid p.medicine p.hour p.minute n)
          cid true⟩ cid = _
      unfold Store.userReminders Store.findUser
      rw [show (Store.mk (setActiveUsers
            (addRemUsers b.store.users cid p.medicine p.hour p.minute n) cid true)).users =
          setActiveUsers (addRemUsers b.store.users cid p.medicine p.hour p.minute n)
            cid true from rfl, hfs]

theorem custom_course_input_spec_witness :
    (List.lookup 1 sampleCustomBot.pending = some sampleCustomPending ∧
     sampleCustomPending.state = UserState.StateWaitingCustomCourse ∧
     sampleCustomPending.medicine ≠ "" ∧
     sampleCustomBot.store.findUser 1 = some ⟨1, true, [sampleReminder], 8⟩ ∧
     atoi (goTrimSpace "40") = some 40 ∧ (1 : Int) ≤ 40 ∧ (40 : Int) ≤ 365) ∧
    (List.lookup 1 (handleCustomCourseInput sampleCustomBot 1 "40").pending = none ∧
     (handleCustomCourseInput sampleCustomBot 1 "40").store.userReminders 1 =
       [sampleReminder] ++
         [⟨8, sampleCustomPending.medicine, sampleCustomPending.hour,
           sampleCustomPending.minute, 40, 0⟩]) ∧
    (atoi (goTrimSpace "\u00A040") = some 40 ∧
     List.lookup 1 (handleCustomCourseInput sampleCustomBot 1 "\u00A040").pending =
       none ∧
     (handleCustomCourseInput sampleCustomBot 1 "\u00A040").store.userReminders 1 =
       [sampleReminder] ++
         [⟨8, sampleCustomPending.medicine, sampleCustomPending.hour,
           sampleCustomPending.minute, 40, 0⟩]) :=
  ⟨⟨by decide, by decide, by decide, by decide, by decide, by decide, by decide⟩,
    (custom_course_input_spec sampleCustomBot 1 "40" sampleCustomPending
        ⟨1, true, [sampleReminder], 8⟩ (by decide) (by decide) (by decide)
        (by decide)).2 40 (by decide) (by decide) (by decide),
    by decide,
    (custom_course_input_spec sampleCustomBot 1 "\u00A040" sampleCustomPending
        ⟨1, true, [sampleReminder], 8⟩ (by decide) (by decide) (by decide)
        (by decide)).2 40 (by decide) (by decide) (by decide)⟩
